import Mathlib

/-!
Shallow embedding of the run-analysis pipeline of `compare_speedup.py`.

Numeric cells of the pandas tables are modelled as `Option ℚ`: `none` is a
missing value (NaN) and `some q` a finite numeric value.  The step
`df.replace([inf, -inf], nan)` of the source is the identity on tables whose
cells are finite, which is the only situation representable here, so it has no
counterpart in the embedding.  Pandas semantics that matter below:

* a comparison with NaN is `False`, so boolean row filters drop rows whose
  compared cell is missing;
* column reductions (`min`, `max`, `mean`, `median`, `quantile`) skip missing
  values and return NaN on an all-missing column;
* `groupby(keys)` sorts the distinct keys ascending (tuples of strings compare
  lexicographically);
* `Counter(s).most_common(1)` returns the value with the highest count, ties
  broken by first insertion, i.e. by first appearance in the iteration order.

File paths only ever appear through `os.path.basename`, so runs are identified
here directly by their base file name.
-/

def WARMUP_SECONDS : ℚ := 1

/-- One row of a raw input table (`RawSample`): every column is optional. -/
structure RawRow where
  time_s : Option ℚ := none
  fps_inst : Option ℚ := none
  smoothed_fps : Option ℚ := none
  n : Option ℚ := none
  width : Option ℚ := none
  height : Option ℚ := none
  vsync : Option ℚ := none
  threads : Option ℚ := none
  ssaa : Option ℚ := none
  render_frac : Option ℚ := none
  sym : Option ℚ := none
  palette : Option String := none
  deriving DecidableEq

/-- Values of a numeric series in ascending order (pandas sorts before taking
order statistics). -/
def sortQ (l : List ℚ) : List ℚ := l.insertionSort (· ≤ ·)

/-- `pandas.Series.median` over the non-missing values `l`: the middle element
of the sorted values for odd length, the average of the two middle elements for
even length, NaN for an empty series. -/
def median (l : List ℚ) : Option ℚ :=
  let s := sortQ l
  if s.length = 0 then none
  else if s.length % 2 = 1 then some (s.getD (s.length / 2) 0)
  else some ((s.getD (s.length / 2 - 1) 0 + s.getD (s.length / 2) 0) / 2)

/-- `pandas.Series.mean` over the non-missing values `l`. -/
def meanQ (l : List ℚ) : Option ℚ :=
  if l.length = 0 then none else some (l.sum / (l.length : ℚ))

/-- `pandas.Series.quantile` with the default linear interpolation, over the
non-missing values `l` (used by `safe_q`; the `try/except` of `safe_q` only
guards the empty/NaN cases that are returned as NaN here). -/
def quantile (l : List ℚ) (q : ℚ) : Option ℚ :=
  let s := sortQ l
  if s.length = 0 then none
  else
    let h : ℚ := ((s.length - 1 : ℕ) : ℚ) * q
    let lo := (⌊h⌋).toNat
    let hi := (⌈h⌉).toNat
    let a := s.getD lo 0
    let b := s.getD hi 0
    some (a + (h - (lo : ℚ)) * (b - a))

/-- The distinct values of `l` in order of first appearance (the key order of
a Python `Counter` built by iterating over `l`). -/
def firstSeen (l : List ℚ) : List ℚ :=
  l.foldl (fun acc x => if x ∈ acc then acc else acc ++ [x]) []

/-- `Counter(l).most_common(1)[0][0]`: the value of `l` with the highest
occurrence count; on ties, the value appearing first in `l`. -/
def firstMode (l : List ℚ) : Option ℚ :=
  (firstSeen l).foldl
    (fun acc x =>
      match acc with
      | none => some x
      | some b => if l.count b < l.count x then some x else acc)
    none

/-- `mode_or_nan` of the source: drop missing values, then the modal value
with first-encountered tie-break, NaN if nothing remains. -/
def mode_or_nan (l : List (Option ℚ)) : Option ℚ := firstMode (l.filterMap id)

/-- Substring test on character lists (Python `pat in hay`). -/
def subMatch (pat : List Char) : List Char → Bool
  | [] => pat.isPrefixOf []
  | c :: t => pat.isPrefixOf (c :: t) || subMatch pat t

def strContainsSub (hay pat : String) : Bool := subMatch pat.data hay.data

/-- Python `str.lower()` (character-wise lower-casing of the underlying
character list; the palette names and file names involved are ASCII). -/
def lowerStr (s : String) : String := String.mk (s.data.map Char.toLower)

/-- Python `str.strip()`: drop whitespace from both ends. -/
def stripStr (s : String) : String :=
  String.mk (((s.data.dropWhile Char.isWhitespace).reverse.dropWhile
    Char.isWhitespace).reverse)

/-- `infer_palette_from_df_or_name`: the last non-missing value of the palette
column, stripped and lower-cased, if it is non-empty; otherwise a substring
match of the lower-cased file name against the known palette names; otherwise
`"unknown"`. -/
def infer_palette_from_df_or_name (rows : List RawRow) (file : String) : String :=
  let fromName :=
    let name := lowerStr file
    if strContainsSub name "neon" then "neon"
    else if strContainsSub name "ocean" then "ocean"
    else "unknown"
  match (rows.filterMap (fun r => r.palette)).getLast? with
  | some p0 =>
      let v := lowerStr (stripStr p0)
      if v = "" then fromName else v
  | none => fromName

/-- The warmup-trim step of `summarize_one_run`: if the elapsed-time column has
any non-missing value, let `t0` be its minimum and keep exactly the rows whose
elapsed time satisfies `time_s >= t0 + WARMUP_SECONDS` (in pandas a row with
missing `time_s` fails this comparison and is dropped); otherwise keep all
rows. -/
def warmupTrim (rows : List RawRow) : List RawRow :=
  match (rows.filterMap (fun r => r.time_s)).min? with
  | none => rows
  | some t0 =>
      rows.filter (fun r =>
        match r.time_s with
        | some t => decide (t0 + WARMUP_SECONDS ≤ t)
        | none => false)

/-- The FPS cleaning step of `summarize_one_run`: keep exactly the rows whose
instantaneous FPS is present and `> 0`. -/
def fpsClean (rows : List RawRow) : List RawRow :=
  rows.filter (fun r =>
    match r.fps_inst with
    | some f => decide (0 < f)
    | none => false)

/-- The per-run summary record returned by a successful `summarize_one_run`. -/
structure RunSummary where
  file : String := ""
  variant : String := ""
  palette : String := ""
  rows : ℕ := 0
  duration_s : Option ℚ := none
  fps_inst_mean : Option ℚ := none
  fps_inst_median : Option ℚ := none
  fps_inst_p05 : Option ℚ := none
  fps_inst_p95 : Option ℚ := none
  smoothed_fps_mean : Option ℚ := none
  smoothed_fps_median : Option ℚ := none
  frame_ms_mean : Option ℚ := none
  frame_ms_median : Option ℚ := none
  frame_ms_p95 : Option ℚ := none
  frame_ms_p99 : Option ℚ := none
  throughput_particles_per_s : Option ℚ := none
  n : Option ℚ := none
  width : Option ℚ := none
  height : Option ℚ := none
  vsync : Option ℚ := none
  threads : Option ℚ := none
  ssaa : Option ℚ := none
  render_frac : Option ℚ := none
  sym : Option ℚ := none
  deriving DecidableEq

/-- `summarize_one_run` on an already-parsed table (the `read_error` branch
belongs to file IO and is outside the embedded pipeline).  `file` stands for
`os.path.basename(path)`. -/
def summarize_one_run (rows : List RawRow) (file variant : String) :
    Except String RunSummary :=
  let df := fpsClean (warmupTrim rows)
  match df.getLast? with
  | none => Except.error "empty_after_clean"
  | some last =>
      let fps := df.filterMap (fun r => r.fps_inst)
      let sm := df.filterMap (fun r => r.smoothed_fps)
      let frame_ms := fps.map (fun f => 1000 / f)
      let times := df.filterMap (fun r => r.time_s)
      Except.ok {
        file := file
        variant := variant
        palette := infer_palette_from_df_or_name df file
        rows := df.length
        duration_s :=
          match times.min?, times.max? with
          | some a, some b => some (b - a)
          | _, _ => none
        fps_inst_mean := meanQ fps
        fps_inst_median := median fps
        fps_inst_p05 := quantile fps (5 / 100)
        fps_inst_p95 := quantile fps (95 / 100)
        smoothed_fps_mean := meanQ sm
        smoothed_fps_median := median sm
        frame_ms_mean := meanQ frame_ms
        frame_ms_median := median frame_ms
        frame_ms_p95 := quantile frame_ms (95 / 100)
        frame_ms_p99 := quantile frame_ms (99 / 100)
        throughput_particles_per_s :=
          (median fps).map (fun m => m * (last.n.getD 0))
        n := last.n
        width := last.width
        height := last.height
        vsync := last.vsync
        threads := last.threads
        ssaa := last.ssaa
        render_frac := last.render_frac
        sym := last.sym }

/-- `summarize_many`: summarize each table, keep the successful summaries in
input order (the failed ones are only printed). -/
def summarize_many (tables : List (List RawRow × String)) (variant : String) :
    List RunSummary :=
  tables.filterMap (fun t => (summarize_one_run t.1 t.2 variant).toOption)

/-- One row of the (variant, palette) aggregate table. -/
structure AggRowVP where
  variant : String := ""
  palette : String := ""
  fps_inst_median : Option ℚ := none
  fps_inst_mean : Option ℚ := none
  smoothed_fps_median : Option ℚ := none
  smoothed_fps_mean : Option ℚ := none
  frame_ms_median : Option ℚ := none
  frame_ms_mean : Option ℚ := none
  frame_ms_p95 : Option ℚ := none
  frame_ms_p99 : Option ℚ := none
  throughput_particles_per_s : Option ℚ := none
  n : Option ℚ := none
  width : Option ℚ := none
  height : Option ℚ := none
  vsync : Option ℚ := none
  ssaa : Option ℚ := none
  render_frac : Option ℚ := none
  sym : Option ℚ := none
  runs : ℕ := 0
  threads_mode : Option ℚ := none
  deriving DecidableEq

/-- One row of the variant-only aggregate table. -/
structure AggRowV where
  variant : String := ""
  fps_inst_median : Option ℚ := none
  fps_inst_mean : Option ℚ := none
  smoothed_fps_median : Option ℚ := none
  smoothed_fps_mean : Option ℚ := none
  frame_ms_median : Option ℚ := none
  frame_ms_mean : Option ℚ := none
  frame_ms_p95 : Option ℚ := none
  frame_ms_p99 : Option ℚ := none
  throughput_particles_per_s : Option ℚ := none
  n : Option ℚ := none
  width : Option ℚ := none
  height : Option ℚ := none
  vsync : Option ℚ := none
  ssaa : Option ℚ := none
  render_frac : Option ℚ := none
  sym : Option ℚ := none
  runs : ℕ := 0
  threads_mode : Option ℚ := none
  deriving DecidableEq

/-- Group median of one metric column: pandas `median` skips missing values
inside the group and yields NaN when all are missing. -/
def medianOpt (l : List (Option ℚ)) : Option ℚ := median (l.filterMap id)

/-- Python string order (lexicographic by code point) on the pair of grouping
keys, as used by `groupby(["variant", "palette"], sort=True)`. -/
def vpLe (a b : String × String) : Prop :=
  a.1.data < b.1.data ∨ (a.1.data = b.1.data ∧ a.2.data ≤ b.2.data)

instance : DecidableRel vpLe := fun a b => by unfold vpLe; infer_instance

/-- Python string order on the single grouping key of `groupby(["variant"])`. -/
def vLe (a b : String) : Prop := a.data ≤ b.data

instance : DecidableRel vLe := fun a b => by unfold vLe; infer_instance

def aggKeyVP (r : RunSummary) : String × String := (r.variant, r.palette)

/-- The member runs of the (variant, palette) group `k`. -/
def groupVP (rs : List RunSummary) (k : String × String) : List RunSummary :=
  rs.filter (fun r => decide (aggKeyVP r = k))

/-- The aggregate row of the (variant, palette) group `k`: per-metric group
medians over the listed metric columns, the `file` count (`file` is never
missing, so it is the group size), and `mode_or_nan` of the thread counts. -/
def aggRowVP (rs : List RunSummary) (k : String × String) : AggRowVP :=
  let g := groupVP rs k
  { variant := k.1
    palette := k.2
    fps_inst_median := medianOpt (g.map (fun r => r.fps_inst_median))
    fps_inst_mean := medianOpt (g.map (fun r => r.fps_inst_mean))
    smoothed_fps_median := medianOpt (g.map (fun r => r.smoothed_fps_median))
    smoothed_fps_mean := medianOpt (g.map (fun r => r.smoothed_fps_mean))
    frame_ms_median := medianOpt (g.map (fun r => r.frame_ms_median))
    frame_ms_mean := medianOpt (g.map (fun r => r.frame_ms_mean))
    frame_ms_p95 := medianOpt (g.map (fun r => r.frame_ms_p95))
    frame_ms_p99 := medianOpt (g.map (fun r => r.frame_ms_p99))
    throughput_particles_per_s :=
      medianOpt (g.map (fun r => r.throughput_particles_per_s))
    n := medianOpt (g.map (fun r => r.n))
    width := medianOpt (g.map (fun r => r.width))
    height := medianOpt (g.map (fun r => r.height))
    vsync := medianOpt (g.map (fun r => r.vsync))
    ssaa := medianOpt (g.map (fun r => r.ssaa))
    render_frac := medianOpt (g.map (fun r => r.render_frac))
    sym := medianOpt (g.map (fun r => r.sym))
    runs := g.length
    threads_mode := mode_or_nan (g.map (fun r => r.threads)) }

/-- `aggregate_by_variant_palette`: one aggregate row per distinct
(variant, palette) key present in the run-level table, keys sorted ascending;
the empty table yields the empty table. -/
def aggregate_by_variant_palette (rs : List RunSummary) : List AggRowVP :=
  (((rs.map aggKeyVP).dedup).insertionSort vpLe).map (aggRowVP rs)

/-- The member runs of the variant-only group `v`. -/
def groupV (rs : List RunSummary) (v : String) : List RunSummary :=
  rs.filter (fun r => decide (r.variant = v))

/-- The aggregate row of the variant-only group `v`. -/
def aggRowV (rs : List RunSummary) (v : String) : AggRowV :=
  let g := groupV rs v
  { variant := v
    fps_inst_median := medianOpt (g.map (fun r => r.fps_inst_median))
    fps_inst_mean := medianOpt (g.map (fun r => r.fps_inst_mean))
    smoothed_fps_median := medianOpt (g.map (fun r => r.smoothed_fps_median))
    smoothed_fps_mean := medianOpt (g.map (fun r => r.smoothed_fps_mean))
    frame_ms_median := medianOpt (g.map (fun r => r.frame_ms_median))
    frame_ms_mean := medianOpt (g.map (fun r => r.frame_ms_mean))
    frame_ms_p95 := medianOpt (g.map (fun r => r.frame_ms_p95))
    frame_ms_p99 := medianOpt (g.map (fun r => r.frame_ms_p99))
    throughput_particles_per_s :=
      medianOpt (g.map (fun r => r.throughput_particles_per_s))
    n := medianOpt (g.map (fun r => r.n))
    width := medianOpt (g.map (fun r => r.width))
    height := medianOpt (g.map (fun r => r.height))
    vsync := medianOpt (g.map (fun r => r.vsync))
    ssaa := medianOpt (g.map (fun r => r.ssaa))
    render_frac := medianOpt (g.map (fun r => r.render_frac))
    sym := medianOpt (g.map (fun r => r.sym))
    runs := g.length
    threads_mode := mode_or_nan (g.map (fun r => r.threads)) }

/-- `aggregate_by_variant`: one aggregate row per distinct variant present in
the run-level table, variants sorted ascending; empty yields empty. -/
def aggregate_by_variant (rs : List RunSummary) : List AggRowV :=
  (((rs.map (fun r => r.variant)).dedup).insertionSort vLe).map (aggRowV rs)

/-- The single row of the comparison table (`Undefined` fields are `none`). -/
structure ComparisonResult where
  speedup_fps_inst_median : Option ℚ
  threads_mode : Option ℚ
  efficiency : Option ℚ
  amdahl_serial_fraction_est : Option ℚ
  deriving DecidableEq

/-- `compute_speedup_by_variant`: on an input that is empty or whose set of
variant keys differs from `{sequential, parallel}` the result is the empty
table (`none`).  Otherwise `seq`/`par`/`thr` come from the first matching rows
(`.iloc[0]`) and each derived field is computed with the NaN-propagation of
the source: `par / seq` is NaN when either median is NaN or `seq` is zero
(`float(seq)` is falsy exactly at zero, and any arithmetic with NaN is NaN);
`eff = sp / thr` only when `thr` is present and `> 0`, and is NaN when `sp` is
NaN; the Amdahl estimate needs `thr > 1` and `sp > 0`, both false on NaN. -/
def compute_speedup_by_variant (agg : List AggRowV) : Option ComparisonResult :=
  if agg = [] ∨
      (agg.map (fun r => r.variant)).toFinset ≠
        ({"sequential", "parallel"} : Finset String) then none
  else
    match agg.find? (fun r => decide (r.variant = "sequential")),
          agg.find? (fun r => decide (r.variant = "parallel")) with
    | some srow, some prow =>
        let sp : Option ℚ :=
          match srow.fps_inst_median, prow.fps_inst_median with
          | some sv, some pv => if sv = 0 then none else some (pv / sv)
          | _, _ => none
        let thr : Option ℚ := prow.threads_mode
        let eff : Option ℚ :=
          match thr with
          | some t => if 0 < t then sp.map (fun x => x / t) else none
          | none => none
        let amd : Option ℚ :=
          match thr, sp with
          | some t, some x =>
              if 1 < t ∧ 0 < x then some ((t / x - 1) / (t - 1)) else none
          | _, _ => none
        some { speedup_fps_inst_median := sp
               threads_mode := thr
               efficiency := eff
               amdahl_serial_fraction_est := amd }
    | _, _ => none

def exAggParOnly : AggRowV := { variant := "parallel", fps_inst_median := some 90 }

def exAggSeq30 : AggRowV := { variant := "sequential", fps_inst_median := some 30 }

def exAggPar90 : AggRowV :=
  { variant := "parallel", fps_inst_median := some 90, threads_mode := some 4 }

def exAggSeq10 : AggRowV := { variant := "sequential", fps_inst_median := some 10 }

def exAggPar40 : AggRowV :=
  { variant := "parallel", fps_inst_median := some 40, threads_mode := some 4 }

def exAggPar10 : AggRowV :=
  { variant := "parallel", fps_inst_median := some 10, threads_mode := some 4 }

def rowT0 : RawRow := { time_s := some 0, fps_inst := some 60 }

def rowT5 : RawRow := { time_s := some 5, fps_inst := some 50 }

def rowTnone : RawRow := { fps_inst := some 40 }

def exC6 : List RawRow := [rowT0, rowT5, rowTnone]

def rowU0 : RawRow := { time_s := some 0, fps_inst := some 60 }

def rowU2 : RawRow := { time_s := some 2, fps_inst := some 60 }

def rowU3 : RawRow := { time_s := some 3, fps_inst := some 60 }

def rowBad1 : RawRow := { time_s := some 0, fps_inst := some 0 }

def rowBad2 : RawRow := { time_s := some 3, fps_inst := some (-2) }

def rowBad3 : RawRow := { time_s := some 5 }

def exBad : List RawRow := [rowBad1, rowBad2, rowBad3]

def exRunSeq : RunSummary :=
  { file := "s.csv", variant := "sequential", palette := "neon",
    fps_inst_median := some 30, threads := some 1 }

def rowE1 : RawRow := { time_s := some 0, fps_inst := some 10 }

def rowE2 : RawRow :=
  { time_s := some 2, fps_inst := some 10, smoothed_fps := some 8,
    n := some 7, threads := some 4 }

def rowE3 : RawRow :=
  { time_s := some 5, fps_inst := some 30, smoothed_fps := some 12,
    n := some 7, threads := some 4, palette := some "neon" }

def exEval : List RawRow := [rowE1, rowE2, rowE3]

def rowNoN : RawRow := { fps_inst := some 10 }

def exRunA : RunSummary :=
  { file := "a.csv", variant := "parallel", palette := "neon", rows := 5,
    duration_s := some 4, fps_inst_mean := some 30, fps_inst_median := some 30,
    fps_inst_p05 := some 1, fps_inst_p95 := some 50,
    smoothed_fps_mean := some 25, smoothed_fps_median := some 24,
    frame_ms_mean := some 33, frame_ms_median := some 33,
    frame_ms_p95 := some 40, frame_ms_p99 := some 45,
    throughput_particles_per_s := some 90, n := some 3,
    threads := some 4 }

def exRunB : RunSummary :=
  { file := "a.csv", variant := "parallel", palette := "neon", rows := 9,
    duration_s := some 9, fps_inst_mean := some 30, fps_inst_median := some 30,
    fps_inst_p05 := some 2, fps_inst_p95 := some 50,
    smoothed_fps_mean := some 25, smoothed_fps_median := some 24,
    frame_ms_mean := some 33, frame_ms_median := some 33,
    frame_ms_p95 := some 40, frame_ms_p99 := some 45,
    throughput_particles_per_s := some 90, n := some 3,
    threads := some 4 }

instance : IsTrans (String × String) vpLe := by
  constructor
  intro a b c hab hbc
  rcases hab with h1 | ⟨h1, h2⟩ <;> rcases hbc with h3 | ⟨h3, h4⟩
  · exact Or.inl (lt_trans h1 h3)
  · exact Or.inl (by rw [← h3]; exact h1)
  · exact Or.inl (by rw [h1]; exact h3)
  · exact Or.inr ⟨h1.trans h3, le_trans h2 h4⟩

instance : IsTotal (String × String) vpLe := by
  constructor
  intro a b
  rcases lt_trichotomy a.1.data b.1.data with h | h | h
  · exact Or.inl (Or.inl h)
  · rcases le_total a.2.data b.2.data with h2 | h2
    · exact Or.inl (Or.inr ⟨h, h2⟩)
    · exact Or.inr (Or.inr ⟨h.symm, h2⟩)
  · exact Or.inr (Or.inl h)

instance : IsAntisymm (String × String) vpLe := by
  constructor
  intro a b hab hba
  rcases hab with h1 | ⟨h1, h2⟩ <;> rcases hba with h3 | ⟨h3, h4⟩
  · exact absurd h3 (lt_asymm h1)
  · rw [h3] at h1
    exact absurd h1 (lt_irrefl _)
  · rw [h1] at h3
    exact absurd h3 (lt_irrefl _)
  · have hd1 : a.1 = b.1 := String.ext h1
    have hd2 : a.2 = b.2 := String.ext (le_antisymm h2 h4)
    exact Prod.ext hd1 hd2

instance : IsTrans String vLe := by
  constructor
  intro a b c hab hbc
  exact le_trans hab hbc

instance : IsTotal String vLe := by
  constructor
  intro a b
  exact le_total a.data b.data

instance : IsAntisymm String vLe := by
  constructor
  intro a b hab hba
  exact String.ext (le_antisymm hab hba)

/-- An aggregate row with its modal-thread-count column blanked, used to state
which part of the output is order-invariant. -/
def eraseModeVP (row : AggRowVP) : AggRowVP := { row with threads_mode := none }

def eraseModeV (row : AggRowV) : AggRowV := { row with threads_mode := none }

def exRunT2 : RunSummary :=
  { file := "a.csv", variant := "parallel", palette := "neon",
    fps_inst_median := some 30, threads := some 2 }

def exRunT4 : RunSummary :=
  { file := "b.csv", variant := "parallel", palette := "neon",
    fps_inst_median := some 30, threads := some 4 }

theorem toFinset_pair_ne_nil {l : List String}
    (h : l.toFinset = ({"sequential", "parallel"} : Finset String)) : l ≠ [] := by
  intro hnil
  subst hnil
  simp at h
  exact (Finset.insert_ne_empty _ _) h.symm

/-- C1: for every variant-only aggregate whose set of variant keys is not
exactly {sequential, parallel} (including the empty table),
`compute_speedup_by_variant` returns the empty result `none` instead of a
`ComparisonResult`; the function is total, so no exception can be raised. -/
theorem claim_C1_comparator_totality (agg : List AggRowV)
    (h : (agg.map (fun r => r.variant)).toFinset ≠
      ({"sequential", "parallel"} : Finset String)) :
    compute_speedup_by_variant agg = none := by
  unfold compute_speedup_by_variant
  exact if_pos (Or.inr h)

/-- C1 witness: a table holding only the parallel variant is rejected. -/
theorem claim_C1_comparator_totality_witness :
    (([exAggParOnly].map (fun r => r.variant)).toFinset ≠
      ({"sequential", "parallel"} : Finset String)) ∧
    compute_speedup_by_variant [exAggParOnly] = none := by
  refine ⟨by decide, claim_C1_comparator_totality _ (by decide)⟩

/-- Reduction of `compute_speedup_by_variant` on a well-formed input: with both
variant keys present, the result is the record whose fields are computed from
the first sequential row and the first parallel row. -/
theorem compute_speedup_by_variant_eq (agg : List AggRowV) (srow prow : AggRowV)
    (hset : (agg.map (fun r => r.variant)).toFinset =
      ({"sequential", "parallel"} : Finset String))
    (hs : agg.find? (fun r => decide (r.variant = "sequential")) = some srow)
    (hp : agg.find? (fun r => decide (r.variant = "parallel")) = some prow) :
    compute_speedup_by_variant agg =
      some { speedup_fps_inst_median :=
               match srow.fps_inst_median, prow.fps_inst_median with
               | some sv, some pv => if sv = 0 then none else some (pv / sv)
               | _, _ => none
             threads_mode := prow.threads_mode
             efficiency :=
               match prow.threads_mode with
               | some t =>
                   if 0 < t then
                     (match srow.fps_inst_median, prow.fps_inst_median with
                      | some sv, some pv =>
                          if sv = 0 then none else some (pv / sv)
                      | _, _ => none).map (fun x => x / t)
                   else none
               | none => none
             amdahl_serial_fraction_est :=
               match prow.threads_mode,
                     (match srow.fps_inst_median, prow.fps_inst_median with
                      | some sv, some pv =>
                          if sv = 0 then none else some (pv / sv)
                      | _, _ => none) with
               | some t, some x =>
                   if 1 < t ∧ 0 < x then some ((t / x - 1) / (t - 1)) else none
               | _, _ => none } := by
  have hne : agg ≠ [] := by
    intro hnil
    exact toFinset_pair_ne_nil hset (by simp [hnil])
  unfold compute_speedup_by_variant
  rw [if_neg (by push_neg; exact ⟨hne, hset⟩), hs, hp]

/-- C2: on a variant-only aggregate holding exactly the two variants, the
speedup field is the parallel median instantaneous FPS divided by the
sequential one (`none` when the sequential median is missing or zero, or when
the parallel median is missing), and the efficiency field is the speedup
divided by the parallel modal thread count (`none` whenever that thread count
is missing or `≤ 0`); both are computed by a total function, so nothing can be
raised. -/
theorem claim_C2_speedup_and_efficiency (agg : List AggRowV) (srow prow : AggRowV)
    (hset : (agg.map (fun r => r.variant)).toFinset =
      ({"sequential", "parallel"} : Finset String))
    (hs : agg.find? (fun r => decide (r.variant = "sequential")) = some srow)
    (hp : agg.find? (fun r => decide (r.variant = "parallel")) = some prow) :
    ∃ res, compute_speedup_by_variant agg = some res ∧
      res.speedup_fps_inst_median =
        (prow.fps_inst_median.bind (fun pv =>
          srow.fps_inst_median.bind (fun sv =>
            if sv = 0 then none else some (pv / sv)))) ∧
      (srow.fps_inst_median = none → res.speedup_fps_inst_median = none) ∧
      (srow.fps_inst_median = some 0 → res.speedup_fps_inst_median = none) ∧
      (prow.fps_inst_median = none → res.speedup_fps_inst_median = none) ∧
      (∀ t, prow.threads_mode = some t → 0 < t →
        res.efficiency = res.speedup_fps_inst_median.map (fun x => x / t)) ∧
      (prow.threads_mode = none → res.efficiency = none) ∧
      (∀ t, prow.threads_mode = some t → t ≤ 0 → res.efficiency = none) := by
  refine ⟨_, compute_speedup_by_variant_eq agg srow prow hset hs hp, ?_, ?_, ?_, ?_, ?_, ?_, ?_⟩
  · cases hsm : srow.fps_inst_median with
    | none => cases prow.fps_inst_median <;> rfl
    | some sv => cases prow.fps_inst_median <;> rfl
  · intro hsm
    rw [hsm]
  · intro hsm
    rw [hsm]
    cases prow.fps_inst_median <;> simp
  · intro hpm
    rw [hpm]
    cases srow.fps_inst_median <;> rfl
  · intro t ht hpos
    rw [ht]
    simp only [if_pos hpos]
  · intro ht
    rw [ht]
  · intro t ht hnonpos
    rw [ht]
    simp only [if_neg (not_lt.mpr hnonpos)]

/-- C2 witness: the end-to-end scenario of the spec — sequential median 30,
parallel median 90, modal thread count 4 — yields speedup 3 and efficiency
3/4. -/
theorem claim_C2_speedup_and_efficiency_witness :
    ∃ res, compute_speedup_by_variant [exAggSeq30, exAggPar90] = some res ∧
      res.speedup_fps_inst_median = some 3 ∧ res.efficiency = some (3 / 4) := by
  obtain ⟨res, hres, hsp, -, -, -, heff, -, -⟩ :=
    claim_C2_speedup_and_efficiency [exAggSeq30, exAggPar90] exAggSeq30 exAggPar90
      (by decide) (by decide) (by decide)
  have hsp3 : res.speedup_fps_inst_median = some 3 := by
    rw [hsp]
    show some ((90 : ℚ) / 30) = some 3
    norm_num
  have heff4 := heff 4 rfl (by norm_num)
  rw [hsp3] at heff4
  refine ⟨res, hres, hsp3, ?_⟩
  rw [heff4]
  show some ((3 : ℚ) / 4) = some (3 / 4)
  rfl

/-- C3: on a variant-only aggregate holding exactly the two variants, the
Amdahl serial-fraction estimate is `(threads / speedup - 1) / (threads - 1)`
exactly when the parallel modal thread count is `> 1` and the computed speedup
is `> 0`, and is `none` otherwise (in particular whenever the thread count or
the speedup is missing). -/
theorem claim_C3_amdahl_estimate (agg : List AggRowV) (srow prow : AggRowV)
    (hset : (agg.map (fun r => r.variant)).toFinset =
      ({"sequential", "parallel"} : Finset String))
    (hs : agg.find? (fun r => decide (r.variant = "sequential")) = some srow)
    (hp : agg.find? (fun r => decide (r.variant = "parallel")) = some prow) :
    ∃ res, compute_speedup_by_variant agg = some res ∧
      (∀ t x, prow.threads_mode = some t →
        res.speedup_fps_inst_median = some x → 1 < t → 0 < x →
        res.amdahl_serial_fraction_est = some ((t / x - 1) / (t - 1))) ∧
      (∀ t x, prow.threads_mode = some t →
        res.speedup_fps_inst_median = some x → ¬(1 < t ∧ 0 < x) →
        res.amdahl_serial_fraction_est = none) ∧
      (prow.threads_mode = none → res.amdahl_serial_fraction_est = none) ∧
      (res.speedup_fps_inst_median = none →
        res.amdahl_serial_fraction_est = none) := by
  refine ⟨_, compute_speedup_by_variant_eq agg srow prow hset hs hp, ?_, ?_, ?_, ?_⟩
  · intro t x ht hx h1 h0
    rw [ht] at *
    simp only at hx
    rw [hx]
    simp only [if_pos (And.intro h1 h0)]
  · intro t x ht hx hnot
    rw [ht] at *
    simp only at hx
    rw [hx]
    simp only [if_neg hnot]
  · intro ht
    rw [ht]
  · intro hx
    simp only at hx
    rw [hx]
    cases prow.threads_mode <;> rfl

/-- C3 witness: with modal thread count 4, a measured speedup of 4 (medians
10 and 40) gives estimate 0, and a measured speedup of 1 (medians 10 and 10)
gives estimate 1. -/
theorem claim_C3_amdahl_estimate_witness :
    (∃ res, compute_speedup_by_variant [exAggSeq10, exAggPar40] = some res ∧
      res.speedup_fps_inst_median = some 4 ∧
      res.amdahl_serial_fraction_est = some 0) ∧
    (∃ res, compute_speedup_by_variant [exAggSeq10, exAggPar10] = some res ∧
      res.speedup_fps_inst_median = some 1 ∧
      res.amdahl_serial_fraction_est = some 1) := by
  constructor
  · obtain ⟨res, hres, hamd, -, -, -⟩ :=
      claim_C3_amdahl_estimate [exAggSeq10, exAggPar40] exAggSeq10 exAggPar40
        (by decide) (by decide) (by decide)
    have hres2 := compute_speedup_by_variant_eq [exAggSeq10, exAggPar40]
      exAggSeq10 exAggPar40 (by decide) (by decide) (by decide)
    rw [hres] at hres2
    have hr : res = _ := (Option.some.injEq _ _).mp hres2
    have hsp : res.speedup_fps_inst_median = some 4 := by
      rw [hr]
      show some ((40 : ℚ) / 10) = some 4
      norm_num
    have := hamd 4 4 rfl hsp (by norm_num) (by norm_num)
    refine ⟨res, hres, hsp, ?_⟩
    rw [this]
    norm_num
  · obtain ⟨res, hres, hamd, -, -, -⟩ :=
      claim_C3_amdahl_estimate [exAggSeq10, exAggPar10] exAggSeq10 exAggPar10
        (by decide) (by decide) (by decide)
    have hres2 := compute_speedup_by_variant_eq [exAggSeq10, exAggPar10]
      exAggSeq10 exAggPar10 (by decide) (by decide) (by decide)
    rw [hres] at hres2
    have hr : res = _ := (Option.some.injEq _ _).mp hres2
    have hsp : res.speedup_fps_inst_median = some 1 := by
      rw [hr]
      show some ((10 : ℚ) / 10) = some 1
      norm_num
    have := hamd 4 1 rfl hsp (by norm_num) (by norm_num)
    refine ⟨res, hres, hsp, ?_⟩
    rw [this]
    norm_num

theorem minQ_eq_some {l : List ℚ} {a : ℚ} (hmem : a ∈ l)
    (hlb : ∀ b ∈ l, a ≤ b) : l.min? = some a := by
  haveI : Std.Antisymm ((· ≤ ·) : ℚ → ℚ → Prop) := ⟨fun h1 h2 => le_antisymm h1 h2⟩
  cases hl : l.min? with
  | none =>
      rw [List.min?_eq_none_iff] at hl
      subst hl
      cases hmem
  | some m =>
      have hm := (List.min?_eq_some_iff (fun a => le_refl a)
        (fun a b => min_choice a b) (fun a b c => le_min_iff)).mp hl
      have : m = a := le_antisymm (hm.2 a hmem) (hlb m hm.1)
      rw [this]

theorem maxQ_eq_some {l : List ℚ} {a : ℚ} (hmem : a ∈ l)
    (hub : ∀ b ∈ l, b ≤ a) : l.max? = some a := by
  haveI : Std.Antisymm ((· ≤ ·) : ℚ → ℚ → Prop) := ⟨fun h1 h2 => le_antisymm h1 h2⟩
  cases hl : l.max? with
  | none =>
      rw [List.max?_eq_none_iff] at hl
      subst hl
      cases hmem
  | some m =>
      have hm := (List.max?_eq_some_iff (fun a => le_refl a)
        (fun a b => max_choice a b) (fun a b c => max_le_iff)).mp hl
      have : m = a := le_antisymm (hub m hm.1) (hm.2 a hmem)
      rw [this]

theorem minQ_mem {l : List ℚ} {a : ℚ} (h : l.min? = some a) :
    a ∈ l ∧ ∀ b ∈ l, a ≤ b := by
  haveI : Std.Antisymm ((· ≤ ·) : ℚ → ℚ → Prop) := ⟨fun h1 h2 => le_antisymm h1 h2⟩
  exact (List.min?_eq_some_iff (fun a => le_refl a)
    (fun a b => min_choice a b) (fun a b c => le_min_iff)).mp h

/-- C6 (amended): when the elapsed-time column has a non-missing minimum `t0`,
the warmup trim keeps exactly the rows whose elapsed time is present and
`≥ t0 + 1.0` — so it discards the rows with elapsed time `< t0 + 1.0` AND the
rows whose elapsed time is missing (a pandas comparison against NaN is false);
when the column is entirely missing, no row is removed. -/
theorem claim_C6_warmup_trim_amended (rows : List RawRow) :
    (rows.filterMap (fun r => r.time_s) = [] → warmupTrim rows = rows) ∧
    (∀ t0, t0 ∈ rows.filterMap (fun r => r.time_s) →
      (∀ t ∈ rows.filterMap (fun r => r.time_s), t0 ≤ t) →
      ∀ r, r ∈ warmupTrim rows ↔
        r ∈ rows ∧ ∃ t, r.time_s = some t ∧ t0 + WARMUP_SECONDS ≤ t) := by
  constructor
  · intro hnone
    unfold warmupTrim
    rw [hnone]
    rfl
  · intro t0 hmem hlb r
    have hmin : (rows.filterMap (fun r => r.time_s)).min? = some t0 :=
      minQ_eq_some hmem hlb
    unfold warmupTrim
    rw [hmin, List.mem_filter]
    constructor
    · rintro ⟨hr, hp⟩
      refine ⟨hr, ?_⟩
      cases ht : r.time_s with
      | none => rw [ht] at hp; cases hp
      | some t =>
          rw [ht] at hp
          exact ⟨t, rfl, of_decide_eq_true hp⟩
    · rintro ⟨hr, t, ht, hle⟩
      exact ⟨hr, by rw [ht]; exact decide_eq_true hle⟩

/-- C6 counterexample: in a table whose elapsed times are 0, 5 and missing,
the claim keeps the missing-time row (its elapsed time is not `< t0 + 1.0`),
but the code drops it: only the row at time 5 survives the trim. -/
theorem claim_C6_warmup_trim_counterexample :
    rowTnone ∈ exC6 ∧ rowTnone.time_s = none ∧
    warmupTrim exC6 = [rowT5] ∧ rowTnone ∉ warmupTrim exC6 := by
  have htrim : warmupTrim exC6 = [rowT5] := by
    have hmin : (exC6.filterMap (fun r => r.time_s)).min? = some 0 := by
      apply minQ_eq_some
      · norm_num [exC6, rowT0, rowT5, rowTnone]
      · intro b hb
        norm_num [exC6, rowT0, rowT5, rowTnone] at hb
        rcases hb with rfl | rfl | hb
        · norm_num
        · norm_num
        · cases hb
    unfold warmupTrim
    rw [hmin]
    norm_num [exC6, rowT0, rowT5, rowTnone, List.filter, WARMUP_SECONDS]
  refine ⟨by norm_num [exC6], rfl, htrim, ?_⟩
  rw [htrim]
  norm_num [rowT5, rowTnone]

/-- C6 witness: the amended trim description applied at the same concrete
table: the rows kept are exactly those with a present elapsed time `≥ 1`. -/
theorem claim_C6_warmup_trim_amended_witness :
    (rowT5 ∈ warmupTrim exC6 ↔
      rowT5 ∈ exC6 ∧ ∃ t, rowT5.time_s = some t ∧ 0 + WARMUP_SECONDS ≤ t) ∧
    (rowTnone ∈ warmupTrim exC6 ↔
      rowTnone ∈ exC6 ∧ ∃ t, rowTnone.time_s = some t ∧ 0 + WARMUP_SECONDS ≤ t) := by
  have h := (claim_C6_warmup_trim_amended exC6).2 0
    (by norm_num [exC6, rowT0, rowT5, rowTnone])
    (by
      intro t ht
      norm_num [exC6, rowT0, rowT5, rowTnone] at ht
      rcases ht with rfl | rfl | ht
      · norm_num
      · norm_num
      · cases ht)
  exact ⟨h rowT5, h rowTnone⟩

/-- C7 (amended): the warmup-trim step is not idempotent.  On any table whose
elapsed-time column has a non-missing value, re-running the trim removes at
least one more row — every row whose elapsed time attains the current minimum
is dropped, since `t0 < t0 + 1.0` — so `warmupTrim rows ≠ rows` there; the
step leaves a table unchanged exactly when the elapsed-time column is entirely
missing. -/
theorem claim_C7_warmup_trim_not_idempotent (rows : List RawRow) :
    (rows.filterMap (fun r => r.time_s) = [] → warmupTrim rows = rows) ∧
    (∀ t0, t0 ∈ rows.filterMap (fun r => r.time_s) →
      (∀ t ∈ rows.filterMap (fun r => r.time_s), t0 ≤ t) →
      ∀ r ∈ rows, r.time_s = some t0 → r ∉ warmupTrim rows) ∧
    (rows.filterMap (fun r => r.time_s) ≠ [] → warmupTrim rows ≠ rows) := by
  have hempty : rows.filterMap (fun r => r.time_s) = [] → warmupTrim rows = rows := by
    intro hnone
    unfold warmupTrim
    rw [hnone]
    rfl
  have hdrop : ∀ t0, t0 ∈ rows.filterMap (fun r => r.time_s) →
      (∀ t ∈ rows.filterMap (fun r => r.time_s), t0 ≤ t) →
      ∀ r ∈ rows, r.time_s = some t0 → r ∉ warmupTrim rows := by
    intro t0 hmem hlb r hr ht0 hin
    have hmin : (rows.filterMap (fun r => r.time_s)).min? = some t0 :=
      minQ_eq_some hmem hlb
    unfold warmupTrim at hin
    rw [hmin, List.mem_filter, ht0] at hin
    have := of_decide_eq_true hin.2
    have hlt : t0 < t0 + WARMUP_SECONDS := by
      unfold WARMUP_SECONDS
      linarith
    exact absurd this (not_le.mpr hlt)
  refine ⟨hempty, hdrop, ?_⟩
  intro hne heq
  cases hmin : (rows.filterMap (fun r => r.time_s)).min? with
  | none => exact hne (List.min?_eq_none_iff.mp hmin)
  | some t0 =>
      obtain ⟨hmem, hlb⟩ := minQ_mem hmin
      obtain ⟨r, hr, ht⟩ := List.mem_filterMap.mp hmem
      exact hdrop t0 hmem hlb r hr ht (show r ∈ warmupTrim rows by rw [heq]; exact hr)

/-- C7 counterexample: trimming `[0, 2, 3]` yields the already-trimmed table
`[2, 3]` (its minimum 2 is `≥ t0 + 1.0 = 1`), yet re-running the trim step on
it removes the row at time 2, so the claimed idempotence fails. -/
theorem claim_C7_warmup_trim_counterexample :
    warmupTrim [rowU0, rowU2, rowU3] = [rowU2, rowU3] ∧
    warmupTrim [rowU2, rowU3] = [rowU3] ∧
    warmupTrim [rowU2, rowU3] ≠ [rowU2, rowU3] := by
  have h1 : warmupTrim [rowU0, rowU2, rowU3] = [rowU2, rowU3] := by
    have hmin : (([rowU0, rowU2, rowU3] : List RawRow).filterMap
        (fun r => r.time_s)).min? = some 0 := by
      apply minQ_eq_some
      · norm_num [rowU0, rowU2, rowU3]
      · intro b hb
        norm_num [rowU0, rowU2, rowU3] at hb
        rcases hb with rfl | rfl | rfl <;> norm_num
    unfold warmupTrim
    rw [hmin]
    norm_num [rowU0, rowU2, rowU3, List.filter, WARMUP_SECONDS]
  have h2 : warmupTrim [rowU2, rowU3] = [rowU3] := by
    have hmin : (([rowU2, rowU3] : List RawRow).filterMap
        (fun r => r.time_s)).min? = some 2 := by
      apply minQ_eq_some
      · norm_num [rowU2, rowU3]
      · intro b hb
        norm_num [rowU2, rowU3] at hb
        rcases hb with rfl | rfl <;> norm_num
    unfold warmupTrim
    rw [hmin]
    norm_num [rowU2, rowU3, List.filter, WARMUP_SECONDS]
  refine ⟨h1, h2, ?_⟩
  rw [h2]
  norm_num [rowU2, rowU3]

/-- C7 witness: the amended statement applied at the already-trimmed table
`[2, 3]`: its elapsed-time column is non-missing, so re-running the trim
changes the table, and the row attaining the minimum is removed. -/
theorem claim_C7_warmup_trim_not_idempotent_witness :
    warmupTrim [rowU2, rowU3] ≠ [rowU2, rowU3] ∧
    rowU2 ∉ warmupTrim [rowU2, rowU3] := by
  have h := claim_C7_warmup_trim_not_idempotent [rowU2, rowU3]
  constructor
  · exact h.2.2 (by decide)
  · apply h.2.1 2
    · norm_num [rowU2, rowU3]
    · intro t ht
      norm_num [rowU2, rowU3] at ht
      rcases ht with rfl | rfl <;> norm_num
    · norm_num [rowU2, rowU3]
    · rfl

theorem mem_of_mem_warmupTrim {rows : List RawRow} {r : RawRow}
    (h : r ∈ warmupTrim rows) : r ∈ rows := by
  unfold warmupTrim at h
  split at h
  · exact h
  · exact (List.mem_filter.mp h).1

theorem mem_fpsClean {rows : List RawRow} {r : RawRow} :
    r ∈ fpsClean rows ↔ r ∈ rows ∧ ∃ f, r.fps_inst = some f ∧ 0 < f := by
  unfold fpsClean
  rw [List.mem_filter]
  constructor
  · rintro ⟨hr, hp⟩
    refine ⟨hr, ?_⟩
    cases hf : r.fps_inst with
    | none => rw [hf] at hp; cases hp
    | some f =>
        rw [hf] at hp
        exact ⟨f, rfl, of_decide_eq_true hp⟩
  · rintro ⟨hr, f, hf, hpos⟩
    exact ⟨hr, by rw [hf]; exact decide_eq_true hpos⟩

theorem median_isSome {l : List ℚ} (h : l ≠ []) : ∃ m, median l = some m := by
  unfold median
  have hlen : (sortQ l).length ≠ 0 := by
    unfold sortQ
    rw [List.length_insertionSort]
    simpa using h
  rw [if_neg hlen]
  split
  · exact ⟨_, rfl⟩
  · exact ⟨_, rfl⟩

/-- Reduction of `summarize_one_run` on a table that survives cleaning. -/
theorem summarize_one_run_ok (rows : List RawRow) (file variant : String)
    (last : RawRow) (hlast : (fpsClean (warmupTrim rows)).getLast? = some last) :
    summarize_one_run rows file variant = Except.ok
      { file := file
        variant := variant
        palette := infer_palette_from_df_or_name (fpsClean (warmupTrim rows)) file
        rows := (fpsClean (warmupTrim rows)).length
        duration_s :=
          match ((fpsClean (warmupTrim rows)).filterMap (fun r => r.time_s)).min?,
                ((fpsClean (warmupTrim rows)).filterMap (fun r => r.time_s)).max? with
          | some a, some b => some (b - a)
          | _, _ => none
        fps_inst_mean := meanQ ((fpsClean (warmupTrim rows)).filterMap (fun r => r.fps_inst))
        fps_inst_median := median ((fpsClean (warmupTrim rows)).filterMap (fun r => r.fps_inst))
        fps_inst_p05 := quantile ((fpsClean (warmupTrim rows)).filterMap (fun r => r.fps_inst)) (5 / 100)
        fps_inst_p95 := quantile ((fpsClean (warmupTrim rows)).filterMap (fun r => r.fps_inst)) (95 / 100)
        smoothed_fps_mean := meanQ ((fpsClean (warmupTrim rows)).filterMap (fun r => r.smoothed_fps))
        smoothed_fps_median := median ((fpsClean (warmupTrim rows)).filterMap (fun r => r.smoothed_fps))
        frame_ms_mean := meanQ (((fpsClean (warmupTrim rows)).filterMap (fun r => r.fps_inst)).map (fun f => 1000 / f))
        frame_ms_median := median (((fpsClean (warmupTrim rows)).filterMap (fun r => r.fps_inst)).map (fun f => 1000 / f))
        frame_ms_p95 := quantile (((fpsClean (warmupTrim rows)).filterMap (fun r => r.fps_inst)).map (fun f => 1000 / f)) (95 / 100)
        frame_ms_p99 := quantile (((fpsClean (warmupTrim rows)).filterMap (fun r => r.fps_inst)).map (fun f => 1000 / f)) (99 / 100)
        throughput_particles_per_s :=
          (median ((fpsClean (warmupTrim rows)).filterMap (fun r => r.fps_inst))).map
            (fun m => m * (last.n.getD 0))
        n := last.n
        width := last.width
        height := last.height
        vsync := last.vsync
        threads := last.threads
        ssaa := last.ssaa
        render_frac := last.render_frac
        sym := last.sym } := by
  simp only [summarize_one_run, hlast]

theorem summarize_one_run_error (rows : List RawRow) (file variant : String)
    (hnil : fpsClean (warmupTrim rows) = []) :
    summarize_one_run rows file variant = Except.error "empty_after_clean" := by
  simp only [summarize_one_run, hnil, List.getLast?_nil]

/-- C8: the cleaning step keeps only rows with a present, strictly positive
instantaneous FPS; a table none of whose rows has a positive FPS value
summarizes to the failure `empty_after_clean`; a run collection made of such
tables yields no RunSummary; and a (variant, palette) key with no member run
is absent from the (variant, palette) aggregate, as is a variant with no
member run from the variant-only aggregate. -/
theorem claim_C8_empty_after_clean :
    (∀ rows : List RawRow, ∀ r ∈ fpsClean (warmupTrim rows),
      ∃ f, r.fps_inst = some f ∧ 0 < f) ∧
    (∀ (rows : List RawRow) (file variant : String),
      (∀ r ∈ rows, ∀ f, r.fps_inst = some f → f ≤ 0) →
      summarize_one_run rows file variant = Except.error "empty_after_clean") ∧
    (∀ (tables : List (List RawRow × String)) (variant : String),
      (∀ t ∈ tables, ∀ r ∈ t.1, ∀ f, r.fps_inst = some f → f ≤ 0) →
      summarize_many tables variant = []) ∧
    (∀ (rs : List RunSummary) (v p : String),
      (∀ s ∈ rs, ¬(s.variant = v ∧ s.palette = p)) →
      ∀ row ∈ aggregate_by_variant_palette rs, ¬(row.variant = v ∧ row.palette = p)) ∧
    (∀ (rs : List RunSummary) (v : String),
      (∀ s ∈ rs, s.variant ≠ v) →
      ∀ row ∈ aggregate_by_variant rs, row.variant ≠ v) := by
  have hclean : ∀ rows : List RawRow, ∀ r ∈ fpsClean (warmupTrim rows),
      ∃ f, r.fps_inst = some f ∧ 0 < f :=
    fun rows r hr => (mem_fpsClean.mp hr).2
  have herr : ∀ (rows : List RawRow) (file variant : String),
      (∀ r ∈ rows, ∀ f, r.fps_inst = some f → f ≤ 0) →
      summarize_one_run rows file variant = Except.error "empty_after_clean" := by
    intro rows file variant hfps
    apply summarize_one_run_error
    rw [List.eq_nil_iff_forall_not_mem]
    intro r hr
    obtain ⟨f, hf, hpos⟩ := (mem_fpsClean.mp hr).2
    have hmem : r ∈ rows := mem_of_mem_warmupTrim (mem_fpsClean.mp hr).1
    exact absurd hpos (not_lt.mpr (hfps r hmem f hf))
  refine ⟨hclean, herr, ?_, ?_, ?_⟩
  · intro tables variant h
    unfold summarize_many
    rw [List.filterMap_eq_nil_iff]
    intro t ht
    rw [herr t.1 t.2 variant (h t ht)]
    rfl
  · intro rs v p h row hrow
    unfold aggregate_by_variant_palette at hrow
    obtain ⟨k, hk, hrk⟩ := List.mem_map.mp hrow
    rw [(List.perm_insertionSort vpLe _).mem_iff, List.mem_dedup] at hk
    obtain ⟨s, hs, hks⟩ := List.mem_map.mp hk
    rintro ⟨hv, hp⟩
    have hv2 : row.variant = k.1 := by rw [← hrk]; rfl
    have hp2 : row.palette = k.2 := by rw [← hrk]; rfl
    apply h s hs
    unfold aggKeyVP at hks
    constructor
    · have : s.variant = k.1 := by rw [← hks]
      rw [this, ← hv2, hv]
    · have : s.palette = k.2 := by rw [← hks]
      rw [this, ← hp2, hp]
  · intro rs v h row hrow
    unfold aggregate_by_variant at hrow
    obtain ⟨k, hk, hrk⟩ := List.mem_map.mp hrow
    rw [(List.perm_insertionSort vLe _).mem_iff, List.mem_dedup] at hk
    obtain ⟨s, hs, hks⟩ := List.mem_map.mp hk
    intro hv
    apply h s hs
    have hv2 : row.variant = k := by rw [← hrk]; rfl
    rw [hks, ← hv2, hv]

/-- C8 witness: a table whose FPS column holds 0, -2 and a missing value
summarizes to `empty_after_clean`, contributes nothing to the run-level
table, and a key with no member run appears in neither aggregate. -/
theorem claim_C8_empty_after_clean_witness :
    summarize_one_run exBad "bad.csv" "parallel" = Except.error "empty_after_clean" ∧
    summarize_many [(exBad, "bad.csv")] "parallel" = [] ∧
    ((aggregate_by_variant_palette [exRunSeq]).all
      (fun row => decide (¬(row.variant = "parallel" ∧ row.palette = "neon")))) = true ∧
    ((aggregate_by_variant [exRunSeq]).all
      (fun row => decide (row.variant ≠ "parallel"))) = true := by
  obtain ⟨-, herr, hmany, habs, habsv⟩ := claim_C8_empty_after_clean
  have hbad : ∀ r ∈ exBad, ∀ f, r.fps_inst = some f → f ≤ 0 := by
    intro r hr f hf
    rcases show r = rowBad1 ∨ r = rowBad2 ∨ r = rowBad3 by
        simpa [exBad] using hr with rfl | rfl | rfl
    · rw [show rowBad1.fps_inst = some 0 from rfl] at hf
      cases hf
      norm_num
    · rw [show rowBad2.fps_inst = some (-2) from rfl] at hf
      cases hf
      norm_num
    · rw [show rowBad3.fps_inst = none from rfl] at hf
      cases hf
  have hseq : ∀ s ∈ [exRunSeq], ¬(s.variant = "parallel" ∧ s.palette = "neon") := by
    intro s hs
    rcases show s = exRunSeq by simpa using hs with rfl
    rintro ⟨hv, -⟩
    exact absurd hv (by decide)
  have hseqv : ∀ s ∈ [exRunSeq], s.variant ≠ "parallel" := by
    intro s hs
    rcases show s = exRunSeq by simpa using hs with rfl
    decide
  refine ⟨herr exBad "bad.csv" "parallel" hbad,
    hmany [(exBad, "bad.csv")] "parallel" ?_, ?_, ?_⟩
  · intro t ht
    rcases show t = (exBad, "bad.csv") by simpa using ht with rfl
    exact hbad
  · exact List.all_eq_true.mpr fun row hrow =>
      decide_eq_true (habs [exRunSeq] "parallel" "neon" hseq row hrow)
  · exact List.all_eq_true.mpr fun row hrow =>
      decide_eq_true (habsv [exRunSeq] "parallel" hseqv row hrow)

/-- C9: whenever `summarize_one_run` succeeds, the throughput field equals
the median of the cleaned instantaneous-FPS values multiplied by the item
count of the last cleaned row, where a missing item count contributes the
factor 0 — so the throughput is then the defined value 0, not missing. -/
theorem claim_C9_throughput (rows : List RawRow) (file variant : String)
    (s : RunSummary) (h : summarize_one_run rows file variant = Except.ok s) :
    ∃ m last,
      median ((fpsClean (warmupTrim rows)).filterMap (fun r => r.fps_inst)) = some m ∧
      (fpsClean (warmupTrim rows)).getLast? = some last ∧
      s.throughput_particles_per_s = some (m * last.n.getD 0) ∧
      (last.n = none → s.throughput_particles_per_s = some 0) := by
  cases hlast : (fpsClean (warmupTrim rows)).getLast? with
  | none =>
      rw [summarize_one_run_error rows file variant
        (List.getLast?_eq_none_iff.mp hlast)] at h
      cases h
  | some last =>
      have hok := summarize_one_run_ok rows file variant last hlast
      rw [h] at hok
      injection hok with hs
      have hmemlast : last ∈ fpsClean (warmupTrim rows) := by
        obtain ⟨ys, hys⟩ := List.getLast?_eq_some_iff.mp hlast
        rw [hys]
        simp
      obtain ⟨f, hf, -⟩ := (mem_fpsClean.mp hmemlast).2
      have hfps : f ∈ (fpsClean (warmupTrim rows)).filterMap (fun r => r.fps_inst) :=
        List.mem_filterMap.mpr ⟨last, hmemlast, hf⟩
      obtain ⟨m, hm⟩ := median_isSome (List.ne_nil_of_mem hfps)
      refine ⟨m, last, hm, rfl, ?_, ?_⟩
      · rw [hs]
        show (median _).map _ = _
        rw [hm]
        rfl
      · intro hn
        rw [hs]
        show (median _).map _ = _
        rw [hm, hn]
        show some (m * 0) = some 0
        rw [mul_zero]

/-- Full evaluation of the summarizer on `exEval`: the warmup trim drops the
row at time 0, the cleaned table is `[rowE2, rowE3]`, and every statistic is
computed from it. -/
theorem exEval_summarize :
    summarize_one_run exEval "a.csv" "sequential" = Except.ok
      { file := "a.csv", variant := "sequential", palette := "neon", rows := 2,
        duration_s := some 3,
        fps_inst_mean := some 20, fps_inst_median := some 20,
        fps_inst_p05 := some 11, fps_inst_p95 := some 29,
        smoothed_fps_mean := some 10, smoothed_fps_median := some 10,
        frame_ms_mean := some (200 / 3), frame_ms_median := some (200 / 3),
        frame_ms_p95 := some (290 / 3), frame_ms_p99 := some (298 / 3),
        throughput_particles_per_s := some 140,
        n := some 7, threads := some 4 } := by
  have c1 : ⌈(1 / 20 : ℚ)⌉ = 1 := by rw [Int.ceil_eq_iff] ; norm_num
  have c2 : ⌈(19 / 20 : ℚ)⌉ = 1 := by rw [Int.ceil_eq_iff] ; norm_num
  have c3 : ⌈(99 / 100 : ℚ)⌉ = 1 := by rw [Int.ceil_eq_iff] ; norm_num
  norm_num [summarize_one_run, warmupTrim, fpsClean, exEval, rowE1, rowE2, rowE3,
    WARMUP_SECONDS, List.min?, List.max?, List.filter, List.filterMap,
    infer_palette_from_df_or_name, lowerStr, stripStr, strContainsSub, subMatch,
    meanQ, median, quantile, sortQ, List.insertionSort, List.orderedInsert,
    medianOpt, min_def, max_def, List.getD, List.getLast?, List.getLast,
    c1, c2, c3]
  decide

/-- Full evaluation of the summarizer on a one-row table with no item count:
the missing `n` makes the throughput the defined value `10 * 0 = 0`. -/
theorem exNoN_summarize :
    summarize_one_run [rowNoN] "b.csv" "parallel" = Except.ok
      { file := "b.csv", variant := "parallel", palette := "unknown", rows := 1,
        duration_s := none,
        fps_inst_mean := some 10, fps_inst_median := some 10,
        fps_inst_p05 := some 10, fps_inst_p95 := some 10,
        smoothed_fps_mean := none, smoothed_fps_median := none,
        frame_ms_mean := some 100, frame_ms_median := some 100,
        frame_ms_p95 := some 100, frame_ms_p99 := some 100,
        throughput_particles_per_s := some 0 } := by
  norm_num [summarize_one_run, warmupTrim, fpsClean, rowNoN,
    WARMUP_SECONDS, List.min?, List.max?, List.filter, List.filterMap,
    infer_palette_from_df_or_name, lowerStr, stripStr, strContainsSub, subMatch,
    meanQ, median, quantile, sortQ, List.insertionSort, List.orderedInsert,
    medianOpt, min_def, max_def, List.getD, List.getLast?, List.getLast]
  decide

/-- C9 witness: on `exEval` the throughput is `20 * 7 = 140` (median FPS times
the last-row item count), and on the table without an item count it is the
defined value 0. -/
theorem claim_C9_throughput_witness :
    (∃ s, summarize_one_run exEval "a.csv" "sequential" = Except.ok s ∧
      s.throughput_particles_per_s = some 140) ∧
    (∃ s, summarize_one_run [rowNoN] "b.csv" "parallel" = Except.ok s ∧
      s.throughput_particles_per_s = some 0) := by
  constructor
  · obtain ⟨m, last, hm, hlast, hthr, -⟩ :=
      claim_C9_throughput exEval "a.csv" "sequential" _ exEval_summarize
    refine ⟨_, exEval_summarize, ?_⟩
    have hm20 : m = 20 := by
      have : median ((fpsClean (warmupTrim exEval)).filterMap (fun r => r.fps_inst)) =
          some 20 := by
        norm_num [warmupTrim, fpsClean, exEval, rowE1, rowE2, rowE3,
          WARMUP_SECONDS, List.min?, List.filter, List.filterMap,
          median, sortQ, List.insertionSort, List.orderedInsert, min_def,
          List.getD]
      rw [this] at hm
      injection hm with hm
      exact hm.symm
    have hlast3 : last = rowE3 := by
      have : (fpsClean (warmupTrim exEval)).getLast? = some rowE3 := by
        norm_num [warmupTrim, fpsClean, exEval, rowE1, rowE2, rowE3,
          WARMUP_SECONDS, List.min?, List.filter, List.filterMap, min_def,
          List.getLast?, List.getLast]
      rw [this] at hlast
      injection hlast with hlast
      exact hlast.symm
    rw [hthr, hm20, hlast3]
    show some (20 * (7 : ℚ)) = some 140
    norm_num
  · obtain ⟨m, last, hm, hlast, hthr, hzero⟩ :=
      claim_C9_throughput [rowNoN] "b.csv" "parallel" _ exNoN_summarize
    refine ⟨_, exNoN_summarize, ?_⟩
    have hlastN : last = rowNoN := by
      have : (fpsClean (warmupTrim [rowNoN])).getLast? = some rowNoN := by
        norm_num [warmupTrim, fpsClean, rowNoN, List.min?, List.filter,
          List.filterMap, List.getLast?, List.getLast]
      rw [this] at hlast
      injection hlast with hlast
      exact hlast.symm
    exact hzero (by rw [hlastN]; decide)

/-- C10: whenever `summarize_one_run` succeeds, the run duration is the
maximum minus the minimum of the elapsed-time values of the cleaned
(post-warmup-trim, post-FPS-filter) table — hence non-negative whenever
defined — and it is missing exactly when the cleaned table has no non-missing
elapsed time. -/
theorem claim_C10_duration (rows : List RawRow) (file variant : String)
    (s : RunSummary) (h : summarize_one_run rows file variant = Except.ok s) :
    ((fpsClean (warmupTrim rows)).filterMap (fun r => r.time_s) = [] →
      s.duration_s = none) ∧
    (∀ a b, a ∈ (fpsClean (warmupTrim rows)).filterMap (fun r => r.time_s) →
      (∀ t ∈ (fpsClean (warmupTrim rows)).filterMap (fun r => r.time_s), a ≤ t) →
      b ∈ (fpsClean (warmupTrim rows)).filterMap (fun r => r.time_s) →
      (∀ t ∈ (fpsClean (warmupTrim rows)).filterMap (fun r => r.time_s), t ≤ b) →
      s.duration_s = some (b - a) ∧ 0 ≤ b - a) := by
  cases hlast : (fpsClean (warmupTrim rows)).getLast? with
  | none =>
      rw [summarize_one_run_error rows file variant
        (List.getLast?_eq_none_iff.mp hlast)] at h
      cases h
  | some last =>
      have hok := summarize_one_run_ok rows file variant last hlast
      rw [h] at hok
      injection hok with hs
      constructor
      · intro hnil
        rw [hs]
        show (match ((fpsClean (warmupTrim rows)).filterMap (fun r => r.time_s)).min?,
              ((fpsClean (warmupTrim rows)).filterMap (fun r => r.time_s)).max? with
          | some a, some b => some (b - a)
          | _, _ => none) = none
        rw [hnil]
        rfl
      · intro a b hamem halb hbmem hbub
        have hmin : ((fpsClean (warmupTrim rows)).filterMap (fun r => r.time_s)).min? =
            some a := minQ_eq_some hamem halb
        have hmax : ((fpsClean (warmupTrim rows)).filterMap (fun r => r.time_s)).max? =
            some b := maxQ_eq_some hbmem hbub
        refine ⟨?_, ?_⟩
        · rw [hs]
          show (match ((fpsClean (warmupTrim rows)).filterMap (fun r => r.time_s)).min?,
                ((fpsClean (warmupTrim rows)).filterMap (fun r => r.time_s)).max? with
            | some a, some b => some (b - a)
            | _, _ => none) = some (b - a)
          rw [hmin, hmax]
        · have := hbub a hamem
          linarith

/-- C10 witness: on `exEval` the cleaned elapsed times are 2 and 5, so the
duration is 3, which excludes the trimmed warmup row at time 0 and is
non-negative. -/
theorem claim_C10_duration_witness :
    ∃ s, summarize_one_run exEval "a.csv" "sequential" = Except.ok s ∧
      s.duration_s = some 3 ∧ (0 : ℚ) ≤ 5 - 2 := by
  have htimes : (fpsClean (warmupTrim exEval)).filterMap (fun r => r.time_s) =
      [2, 5] := by
    norm_num [warmupTrim, fpsClean, exEval, rowE1, rowE2, rowE3,
      WARMUP_SECONDS, List.min?, List.filter, List.filterMap, min_def]
  obtain ⟨-, hminmax⟩ :=
    claim_C10_duration exEval "a.csv" "sequential" _ exEval_summarize
  have h25 := hminmax 2 5 (by rw [htimes]; norm_num)
    (by
      intro t ht
      rw [htimes] at ht
      rcases List.mem_pair.mp ht with rfl | rfl <;> norm_num)
    (by rw [htimes]; norm_num)
    (by
      intro t ht
      rw [htimes] at ht
      rcases List.mem_pair.mp ht with rfl | rfl <;> norm_num)
  refine ⟨_, exEval_summarize, ?_, h25.2⟩
  rw [h25.1]
  norm_num

/-- C4 counterexample: the aggregate output does not carry a median for every
numeric RunSummary metric.  The two run-level tables `[exRunA]` and `[exRunB]`
have different group medians for `fps_inst_p05`, `duration_s` and `rows`, yet
both aggregation views map them to identical outputs — those three metrics are
simply not among the aggregated columns. -/
theorem claim_C4_aggregation_counterexample :
    aggregate_by_variant_palette [exRunA] = aggregate_by_variant_palette [exRunB] ∧
    aggregate_by_variant [exRunA] = aggregate_by_variant [exRunB] ∧
    medianOpt ([exRunA].map (fun r => r.fps_inst_p05)) ≠
      medianOpt ([exRunB].map (fun r => r.fps_inst_p05)) ∧
    medianOpt ([exRunA].map (fun r => r.duration_s)) ≠
      medianOpt ([exRunB].map (fun r => r.duration_s)) ∧
    exRunA.rows ≠ exRunB.rows := by
  refine ⟨?_, ?_, by decide, by decide, by decide⟩ <;> decide

/-- C4 (amended): empty run-level input yields empty output for both
groupings; each output row of either grouping is the aggregate of its
non-empty member group — its run count is the group size, its modal thread
count is `mode_or_nan` of the member thread counts, and each of the sixteen
aggregated metric columns (fps median/mean, smoothed median/mean, frame-time
median/mean/p95/p99, throughput, n, width, height, vsync, ssaa, render_frac,
sym) is the per-metric median over the member runs, medians computed
independently per metric; and every key present in the input appears in the
output.  (The remaining numeric RunSummary fields — fps_inst_p05,
fps_inst_p95, duration_s, rows — are not aggregated, which is what the
counterexample exhibits.) -/
theorem claim_C4_aggregation_amended :
    (aggregate_by_variant_palette [] = [] ∧ aggregate_by_variant [] = []) ∧
    (∀ rs : List RunSummary, ∀ row ∈ aggregate_by_variant_palette rs,
      row = aggRowVP rs (row.variant, row.palette) ∧
      groupVP rs (row.variant, row.palette) ≠ [] ∧
      row.runs = (groupVP rs (row.variant, row.palette)).length ∧
      row.threads_mode = mode_or_nan
        ((groupVP rs (row.variant, row.palette)).map (fun r => r.threads)) ∧
      row.fps_inst_median = medianOpt
        ((groupVP rs (row.variant, row.palette)).map (fun r => r.fps_inst_median)) ∧
      row.fps_inst_mean = medianOpt
        ((groupVP rs (row.variant, row.palette)).map (fun r => r.fps_inst_mean)) ∧
      row.smoothed_fps_median = medianOpt
        ((groupVP rs (row.variant, row.palette)).map (fun r => r.smoothed_fps_median)) ∧
      row.smoothed_fps_mean = medianOpt
        ((groupVP rs (row.variant, row.palette)).map (fun r => r.smoothed_fps_mean)) ∧
      row.frame_ms_median = medianOpt
        ((groupVP rs (row.variant, row.palette)).map (fun r => r.frame_ms_median)) ∧
      row.frame_ms_mean = medianOpt
        ((groupVP rs (row.variant, row.palette)).map (fun r => r.frame_ms_mean)) ∧
      row.frame_ms_p95 = medianOpt
        ((groupVP rs (row.variant, row.palette)).map (fun r => r.frame_ms_p95)) ∧
      row.frame_ms_p99 = medianOpt
        ((groupVP rs (row.variant, row.palette)).map (fun r => r.frame_ms_p99)) ∧
      row.throughput_particles_per_s = medianOpt
        ((groupVP rs (row.variant, row.palette)).map (fun r => r.throughput_particles_per_s)) ∧
      row.n = medianOpt ((groupVP rs (row.variant, row.palette)).map (fun r => r.n)) ∧
      row.width = medianOpt ((groupVP rs (row.variant, row.palette)).map (fun r => r.width)) ∧
      row.height = medianOpt ((groupVP rs (row.variant, row.palette)).map (fun r => r.height)) ∧
      row.vsync = medianOpt ((groupVP rs (row.variant, row.palette)).map (fun r => r.vsync)) ∧
      row.ssaa = medianOpt ((groupVP rs (row.variant, row.palette)).map (fun r => r.ssaa)) ∧
      row.render_frac = medianOpt ((groupVP rs (row.variant, row.palette)).map (fun r => r.render_frac)) ∧
      row.sym = medianOpt ((groupVP rs (row.variant, row.palette)).map (fun r => r.sym))) ∧
    (∀ rs : List RunSummary, ∀ r ∈ rs, ∃ row ∈ aggregate_by_variant_palette rs,
      row.variant = r.variant ∧ row.palette = r.palette) ∧
    (∀ rs : List RunSummary, ∀ row ∈ aggregate_by_variant rs,
      row = aggRowV rs row.variant ∧
      groupV rs row.variant ≠ [] ∧
      row.runs = (groupV rs row.variant).length ∧
      row.threads_mode = mode_or_nan
        ((groupV rs row.variant).map (fun r => r.threads)) ∧
      row.fps_inst_median = medianOpt
        ((groupV rs row.variant).map (fun r => r.fps_inst_median)) ∧
      row.fps_inst_mean = medianOpt
        ((groupV rs row.variant).map (fun r => r.fps_inst_mean)) ∧
      row.smoothed_fps_median = medianOpt
        ((groupV rs row.variant).map (fun r => r.smoothed_fps_median)) ∧
      row.smoothed_fps_mean = medianOpt
        ((groupV rs row.variant).map (fun r => r.smoothed_fps_mean)) ∧
      row.frame_ms_median = medianOpt
        ((groupV rs row.variant).map (fun r => r.frame_ms_median)) ∧
      row.frame_ms_mean = medianOpt
        ((groupV rs row.variant).map (fun r => r.frame_ms_mean)) ∧
      row.frame_ms_p95 = medianOpt
        ((groupV rs row.variant).map (fun r => r.frame_ms_p95)) ∧
      row.frame_ms_p99 = medianOpt
        ((groupV rs row.variant).map (fun r => r.frame_ms_p99)) ∧
      row.throughput_particles_per_s = medianOpt
        ((groupV rs row.variant).map (fun r => r.throughput_particles_per_s)) ∧
      row.n = medianOpt ((groupV rs row.variant).map (fun r => r.n)) ∧
      row.width = medianOpt ((groupV rs row.variant).map (fun r => r.width)) ∧
      row.height = medianOpt ((groupV rs row.variant).map (fun r => r.height)) ∧
      row.vsync = medianOpt ((groupV rs row.variant).map (fun r => r.vsync)) ∧
      row.ssaa = medianOpt ((groupV rs row.variant).map (fun r => r.ssaa)) ∧
      row.render_frac = medianOpt ((groupV rs row.variant).map (fun r => r.render_frac)) ∧
      row.sym = medianOpt ((groupV rs row.variant).map (fun r => r.sym))) ∧
    (∀ rs : List RunSummary, ∀ r ∈ rs, ∃ row ∈ aggregate_by_variant rs,
      row.variant = r.variant) := by
  refine ⟨⟨rfl, rfl⟩, ?_, ?_, ?_, ?_⟩
  · intro rs row hrow
    obtain ⟨k, hk, hrk⟩ := List.mem_map.mp hrow
    subst hrk
    rw [(List.perm_insertionSort vpLe _).mem_iff, List.mem_dedup] at hk
    obtain ⟨r, hr, hkr⟩ := List.mem_map.mp hk
    have hne : groupVP rs ((aggRowVP rs k).variant, (aggRowVP rs k).palette) ≠ [] := by
      have hmem : r ∈ groupVP rs (k.1, k.2) := by
        unfold groupVP
        rw [List.mem_filter]
        exact ⟨hr, decide_eq_true (show aggKeyVP r = (k.1, k.2) by rw [hkr])⟩
      exact List.ne_nil_of_mem hmem
    exact ⟨rfl, hne, rfl, rfl, rfl, rfl, rfl, rfl, rfl, rfl, rfl, rfl, rfl,
      rfl, rfl, rfl, rfl, rfl, rfl, rfl⟩
  · intro rs r hr
    refine ⟨aggRowVP rs (aggKeyVP r), List.mem_map.mpr ⟨aggKeyVP r, ?_, rfl⟩, rfl, rfl⟩
    rw [(List.perm_insertionSort vpLe _).mem_iff, List.mem_dedup]
    exact List.mem_map.mpr ⟨r, hr, rfl⟩
  · intro rs row hrow
    obtain ⟨k, hk, hrk⟩ := List.mem_map.mp hrow
    subst hrk
    rw [(List.perm_insertionSort vLe _).mem_iff, List.mem_dedup] at hk
    obtain ⟨r, hr, hkr⟩ := List.mem_map.mp hk
    have hne : groupV rs (aggRowV rs k).variant ≠ [] := by
      have hmem : r ∈ groupV rs k := by
        unfold groupV
        rw [List.mem_filter]
        exact ⟨hr, decide_eq_true hkr⟩
      exact List.ne_nil_of_mem hmem
    exact ⟨rfl, hne, rfl, rfl, rfl, rfl, rfl, rfl, rfl, rfl, rfl, rfl, rfl,
      rfl, rfl, rfl, rfl, rfl, rfl, rfl⟩
  · intro rs r hr
    refine ⟨aggRowV rs r.variant, List.mem_map.mpr ⟨r.variant, ?_, rfl⟩, rfl⟩
    rw [(List.perm_insertionSort vLe _).mem_iff, List.mem_dedup]
    exact List.mem_map.mpr ⟨r, hr, rfl⟩

/-- C4 witness: the amended statement applied to the one-run table
`[exRunA]`: its single output row in each view has run count 1, group-median
FPS 30 and modal thread count 4. -/
theorem claim_C4_aggregation_amended_witness :
    ∃ row, row ∈ aggregate_by_variant_palette [exRunA] ∧
      row.runs = 1 ∧ row.fps_inst_median = some 30 ∧ row.threads_mode = some 4 ∧
      ∃ rowv, rowv ∈ aggregate_by_variant [exRunA] ∧ rowv.runs = 1 ∧
        rowv.fps_inst_median = some 30 := by
  obtain ⟨-, hvp, -, hv, -⟩ := claim_C4_aggregation_amended
  have hrow : aggRowVP [exRunA] ("parallel", "neon") ∈
      aggregate_by_variant_palette [exRunA] := by decide
  have hrowv : aggRowV [exRunA] "parallel" ∈ aggregate_by_variant [exRunA] := by
    decide
  obtain ⟨-, -, hruns, hthreads, hmed, -⟩ := hvp [exRunA] _ hrow
  obtain ⟨-, -, hrunsv, -, hmedv, -⟩ := hv [exRunA] _ hrowv
  exact ⟨_, hrow, hruns.trans (by decide), hmed.trans (by decide),
    hthreads.trans (by decide), _, hrowv, hrunsv.trans (by decide),
    hmedv.trans (by decide)⟩

theorem insertionSort_eq_of_perm {α : Type} (r : α → α → Prop) [DecidableRel r]
    [IsTotal α r] [IsTrans α r] [IsAntisymm α r] {l1 l2 : List α}
    (h : l1.Perm l2) : l1.insertionSort r = l2.insertionSort r :=
  List.eq_of_perm_of_sorted
    ((List.perm_insertionSort r l1).trans (h.trans (List.perm_insertionSort r l2).symm))
    (List.sorted_insertionSort r l1) (List.sorted_insertionSort r l2)

theorem median_perm {l1 l2 : List ℚ} (h : l1.Perm l2) : median l1 = median l2 := by
  unfold median sortQ
  rw [insertionSort_eq_of_perm (fun a b : ℚ => a ≤ b) h]

theorem medianOpt_perm {l1 l2 : List (Option ℚ)} (h : l1.Perm l2) :
    medianOpt l1 = medianOpt l2 := median_perm (h.filterMap id)

theorem aggRowVP_perm {l1 l2 : List RunSummary} (h : l1.Perm l2)
    (k : String × String) :
    eraseModeVP (aggRowVP l1 k) = eraseModeVP (aggRowVP l2 k) := by
  have hg : (groupVP l1 k).Perm (groupVP l2 k) := h.filter _
  unfold eraseModeVP aggRowVP
  simp only [AggRowVP.mk.injEq]
  repeat' apply And.intro
  all_goals first
    | rfl
    | exact trivial
    | exact medianOpt_perm (hg.map _)
    | exact hg.length_eq

theorem aggRowVP_perm_full {l1 l2 : List RunSummary} (h : l1.Perm l2)
    (k : String × String)
    (hm : mode_or_nan ((groupVP l1 k).map (fun r => r.threads)) =
      mode_or_nan ((groupVP l2 k).map (fun r => r.threads))) :
    aggRowVP l1 k = aggRowVP l2 k := by
  have hg : (groupVP l1 k).Perm (groupVP l2 k) := h.filter _
  unfold aggRowVP
  simp only [AggRowVP.mk.injEq]
  repeat' apply And.intro
  all_goals first
    | rfl
    | exact trivial
    | exact medianOpt_perm (hg.map _)
    | exact hg.length_eq
    | exact hm

theorem aggRowV_perm {l1 l2 : List RunSummary} (h : l1.Perm l2) (v : String) :
    eraseModeV (aggRowV l1 v) = eraseModeV (aggRowV l2 v) := by
  have hg : (groupV l1 v).Perm (groupV l2 v) := h.filter _
  unfold eraseModeV aggRowV
  simp only [AggRowV.mk.injEq]
  repeat' apply And.intro
  all_goals first
    | rfl
    | exact trivial
    | exact medianOpt_perm (hg.map _)
    | exact hg.length_eq

theorem aggRowV_perm_full {l1 l2 : List RunSummary} (h : l1.Perm l2) (v : String)
    (hm : mode_or_nan ((groupV l1 v).map (fun r => r.threads)) =
      mode_or_nan ((groupV l2 v).map (fun r => r.threads))) :
    aggRowV l1 v = aggRowV l2 v := by
  have hg : (groupV l1 v).Perm (groupV l2 v) := h.filter _
  unfold aggRowV
  simp only [AggRowV.mk.injEq]
  repeat' apply And.intro
  all_goals first
    | rfl
    | exact trivial
    | exact medianOpt_perm (hg.map _)
    | exact hg.length_eq
    | exact hm

/-- C5 (amended): permuting the run-level table leaves the grouping keys, all
sixteen aggregated metric medians and the run counts of both views unchanged;
only the modal thread count can differ, through its first-encountered
tie-break, and whenever the modal thread count of every group also agrees the
two outputs are identical. -/
theorem claim_C5_order_invariance_amended (l1 l2 : List RunSummary)
    (hp : l1.Perm l2) :
    (aggregate_by_variant_palette l1).map eraseModeVP =
      (aggregate_by_variant_palette l2).map eraseModeVP ∧
    (aggregate_by_variant l1).map eraseModeV =
      (aggregate_by_variant l2).map eraseModeV ∧
    ((∀ k, mode_or_nan ((groupVP l1 k).map (fun r => r.threads)) =
        mode_or_nan ((groupVP l2 k).map (fun r => r.threads))) →
      aggregate_by_variant_palette l1 = aggregate_by_variant_palette l2) ∧
    ((∀ v, mode_or_nan ((groupV l1 v).map (fun r => r.threads)) =
        mode_or_nan ((groupV l2 v).map (fun r => r.threads))) →
      aggregate_by_variant l1 = aggregate_by_variant l2) := by
  have hkeysVP : ((l1.map aggKeyVP).dedup).insertionSort vpLe =
      ((l2.map aggKeyVP).dedup).insertionSort vpLe :=
    insertionSort_eq_of_perm vpLe ((hp.map aggKeyVP).dedup)
  have hkeysV : ((l1.map (fun r => r.variant)).dedup).insertionSort vLe =
      ((l2.map (fun r => r.variant)).dedup).insertionSort vLe :=
    insertionSort_eq_of_perm vLe ((hp.map (fun r => r.variant)).dedup)
  refine ⟨?_, ?_, ?_, ?_⟩
  · unfold aggregate_by_variant_palette
    rw [hkeysVP, List.map_map, List.map_map]
    exact List.map_congr_left (fun k _ => aggRowVP_perm hp k)
  · unfold aggregate_by_variant
    rw [hkeysV, List.map_map, List.map_map]
    exact List.map_congr_left (fun v _ => aggRowV_perm hp v)
  · intro hm
    unfold aggregate_by_variant_palette
    rw [hkeysVP]
    exact List.map_congr_left (fun k _ => aggRowVP_perm_full hp k (hm k))
  · intro hm
    unfold aggregate_by_variant
    rw [hkeysV]
    exact List.map_congr_left (fun v _ => aggRowV_perm_full hp v (hm v))

/-- C5 counterexample: two runs of the same group with tied thread counts 2
and 4.  Swapping them changes the modal thread count of both views from 2 to
4 (`Counter.most_common` breaks ties by first insertion), so the aggregate
output is not invariant under permutation of the input rows. -/
theorem claim_C5_order_invariance_counterexample :
    ([exRunT2, exRunT4] : List RunSummary).Perm [exRunT4, exRunT2] ∧
    aggregate_by_variant [exRunT2, exRunT4] ≠
      aggregate_by_variant [exRunT4, exRunT2] ∧
    aggregate_by_variant_palette [exRunT2, exRunT4] ≠
      aggregate_by_variant_palette [exRunT4, exRunT2] := by
  refine ⟨List.Perm.swap _ _ _, ?_, ?_⟩
  · intro h
    have h2 := congrArg (List.map (fun row => row.threads_mode)) h
    exact absurd h2 (by decide)
  · intro h
    have h2 := congrArg (List.map (fun row => row.threads_mode)) h
    exact absurd h2 (by decide)

/-- C5 witness: a concrete permutation of a two-run table with distinct
groups: every `eraseMode`-projected output agrees, and since each group has a
unique thread count, the full outputs agree as well. -/
theorem claim_C5_order_invariance_amended_witness :
    (aggregate_by_variant_palette [exRunSeq, exRunT4]).map eraseModeVP =
      (aggregate_by_variant_palette [exRunT4, exRunSeq]).map eraseModeVP ∧
    aggregate_by_variant [exRunSeq, exRunT4] =
      aggregate_by_variant [exRunT4, exRunSeq] := by
  have h := claim_C5_order_invariance_amended [exRunSeq, exRunT4]
    [exRunT4, exRunSeq] (List.Perm.swap _ _ _)
  have hmode : ∀ v,
      mode_or_nan ((groupV [exRunSeq, exRunT4] v).map (fun r => r.threads)) =
        mode_or_nan ((groupV [exRunT4, exRunSeq] v).map (fun r => r.threads)) := by
    intro v
    unfold groupV
    by_cases h1 : exRunSeq.variant = v
    · by_cases h2 : exRunT4.variant = v
      · exact absurd (h2.trans h1.symm) (by decide)
      · simp [List.filter_cons, h1, h2]
    · by_cases h2 : exRunT4.variant = v
      · simp [List.filter_cons, h1, h2]
      · simp [List.filter_cons, h1, h2]
  exact ⟨h.1, h.2.2.2 hmode⟩
